import Mathlib

/-!
Shallow embedding of the spatio-temporal dataset assembly pipeline of
`src/preprocessing/create_ml_dataset_v3.py` (and the temporal-feature
fragment of `src/models/predict_v3.py`), together with theorems settling
the specification claims about it.

Modelling conventions:
* Timestamps are absolute hours encoded as `Int`; `ts.hour` of the source
  becomes `ts % 24` (pandas timestamps are hour-granular here).
* Planar distances, coordinates and weather measurements are `ℚ`
  (the float arithmetic of the source is modelled by exact rationals;
  every claim is about comparisons and bookkeeping, not rounding).
* Python `dict` accumulation is modelled by an association list together
  with an in-place additive update, mirroring the
  `if key not in d: d[key] = 0; d[key] += c` idiom.
* Optional / nullable values (`None`, `NaN`) are `Option`.
-/

set_option autoImplicit false

namespace CityznV3

/-- Sensor metadata record, one value of `sensors_info` (lines 75, 86):
`name`, and the possibly absent coordinates `lat`, `lon`. A coordinate that
is Python-falsy is either absent (`none`) or equal to `0`. -/
structure SensorInfo where
  name : String
  lat : Option ℚ
  lon : Option ℚ
deriving DecidableEq

/-- One entry of `sensors_list` (lines 88-92): counter id, name and the
point geometry `Point(lon, lat)`. -/
structure SensorPoint where
  counter_id : String
  name : String
  geometry : ℚ × ℚ
deriving DecidableEq

/-- The loop body of lines 86-92 for one `sensors_info` item: keep the
sensor only when `info['lat'] and info['lon']` is truthy, i.e. both
coordinates are present and nonzero (Python treats both `None` and `0.0`
as falsy). A kept sensor becomes a `Point(lon, lat)` entry. -/
def sensorEntry (ci : String × SensorInfo) : Option SensorPoint :=
  match ci.2.lat, ci.2.lon with
  | some la, some lo =>
      if la ≠ 0 ∧ lo ≠ 0 then some ⟨ci.1, ci.2.name, (lo, la)⟩ else none
  | _, _ => none

/-- Embeds the loop of lines 85-92: iterate over the `sensors_info` items
(in order), keeping the truthy-coordinate sensors; a skipped sensor raises
nothing. -/
def sensors_list (sensors_info : List (String × SensorInfo)) : List SensorPoint :=
  sensors_info.filterMap sensorEntry

/-- `MAX_DISTANCE = 50` (line 103), the sensor-to-edge match radius in
metres. -/
def MAX_DISTANCE : ℚ := 50

/-- `distances.idxmin()` followed by `distances[min_dist_idx]`
(lines 106-108): the first entry of the per-edge distance series attaining
the minimum distance, as an `(edge id, distance)` pair; `none` on an empty
series. -/
def argminFirst : List (Nat × ℚ) → Option (Nat × ℚ)
  | [] => none
  | p :: rest =>
      match argminFirst rest with
      | none => some p
      | some q => if p.2 ≤ q.2 then some p else some q

/-- Embeds the body of the association loop, lines 105-116, for one sensor:
`dists` is the series of `(osm_id, distance)` of every edge against the
sensor geometry; the nearest edge is kept iff its distance is
`≤ MAX_DISTANCE`, otherwise the sensor is silently excluded (`none`).
The stored metadata (`distance_m`, `sensor_name`) is not needed by any
claim and is omitted; the result is the associated edge id. -/
def sensor_to_edge (dists : List (Nat × ℚ)) : Option Nat :=
  match argminFirst dists with
  | none => none
  | some ed => if ed.2 ≤ MAX_DISTANCE then some ed.1 else none

/-- One count record of `bike_df` after the edge association of
lines 154-157: mapped edge id, hour timestamp and integer count. -/
structure BikeRec where
  edge_id : Nat
  timestamp : Int
  count : Int
deriving DecidableEq

/-- Python-dict additive update on an association list: the semantics of
`if key not in d: d[key] = 0` followed by `d[key] += c` (lines 383-385). -/
def updateAdd : List ((Nat × Int) × Int) → Nat × Int → Int → List ((Nat × Int) × Int)
  | [], k, c => [(k, c)]
  | (k', v) :: rest, k, c =>
      if k' = k then (k', v + c) :: rest else (k', v) :: updateAdd rest k c

/-- `bike_lookup` (lines 380-385): fold the count records into a dict keyed
by `(edge_id, timestamp)`, accumulating the sum of `count`. -/
def bike_lookup (records : List BikeRec) : List ((Nat × Int) × Int) :=
  records.foldl (fun d r => updateAdd d (r.edge_id, r.timestamp) r.count) []

/-- `d.get(k, None)`: dictionary lookup returning `none` for an absent
key (line 405). -/
def lookupKey (d : List ((Nat × Int) × Int)) (k : Nat × Int) : Option Int :=
  (d.find? (fun p => p.1 = k)).map (fun p => p.2)

/-- One row of `weather_df` (lines 244-245): hourly timestamp and the
measured fields used by the grid assembler. -/
structure WeatherRec where
  timestamp : Int
  temperature_c : ℚ
  precipitation_mm : ℚ
  wind_speed_kmh : ℚ
  is_raining : Bool
deriving DecidableEq

/-- `weather_df['timestamp'].searchsorted(ts)` (line 399): the left
insertion point of `ts` in the weather timestamp series.  On the sorted
hourly series this is the number of timestamps strictly below `ts`, which
is the documented semantics of searchsorted (side left). -/
def searchsorted (l : List Int) (ts : Int) : Nat :=
  l.countP (fun x => decide (x < ts))

/-- Embeds the weather selection of lines 397-401 for one grid timestamp:
take the exact-match row if `weather_df[weather_df['timestamp'] == ts]` is
non-empty (its first row, `.iloc[0]`); otherwise take
`weather_df.iloc[searchsorted(ts) - 1]`.  When the insertion point is `0`
(no record at or before `ts`) the Python index is `-1`, which pandas
`iloc` wraps around to the LAST row of the frame; this wrap-around is
modelled by `getLast?`.  On an empty weather frame the source raises
IndexError; that is modelled by `none`. -/
def weather_row (weather : List WeatherRec) (ts : Int) : Option WeatherRec :=
  match weather.filter (fun r => decide (r.timestamp = ts)) with
  | r :: _ => some r
  | [] =>
      let i := searchsorted (weather.map (fun r => r.timestamp)) ts
      if i = 0 then weather.getLast? else weather[i - 1]?

/-- `ts.hour` for an absolute-hour timestamp: `ts % 24` (Int.emod, always
in `[0, 23]`). -/
def hourOf (ts : Int) : Nat := (ts % 24).toNat

/-- `'is_rush_hour_morning': 7 <= ts.hour <= 9` (training grid,
create_ml_dataset_v3.py line 417). -/
def is_rush_hour_morning_train (hour : Nat) : Bool :=
  decide (7 ≤ hour ∧ hour ≤ 9)

/-- `'is_rush_hour_evening': 17 <= ts.hour <= 19` (training grid,
create_ml_dataset_v3.py line 418). -/
def is_rush_hour_evening_train (hour : Nat) : Bool :=
  decide (17 ≤ hour ∧ hour ≤ 19)

/-- `int(target_datetime.hour in [7, 8, 9])` (prediction path,
predict_v3.py line 169); the `int()` coercion only changes the dtype, the
truth value is membership in the list. -/
def is_rush_hour_morning_pred (hour : Nat) : Bool :=
  [7, 8, 9].contains hour

/-- `int(target_datetime.hour in [17, 18, 19])` (prediction path,
predict_v3.py line 170). -/
def is_rush_hour_evening_pred (hour : Nat) : Bool :=
  [17, 18, 19].contains hour

/-- One training row (lines 408-445).  The fields not referenced by any
claim (day-of-week, weekend flag, the remaining weather fields and the
static edge features copied verbatim from `edges_dict`) are omitted; the
key, calendar rush flags, a representative weather field and the target
are kept. -/
structure TrainingRow where
  edge_id : Nat
  timestamp : Int
  hour : Nat
  is_rush_hour_morning : Bool
  is_rush_hour_evening : Bool
  temperature_c : Option ℚ
  bike_count : Option Int
deriving DecidableEq

/-- `dataset_rows` (lines 388-447): for each timestamp (outer loop,
line 392) resolve the weather row, then for each edge with a sensor
(inner loop, line 404) append one row with
`bike_count = bike_lookup.get((edge_id, ts), None)`.  The source hoists
`weather_row` out of the inner loop as an optimisation; it is inlined here
with the same value. -/
def dataset_rows (edges_with_sensors : List Nat) (timestamps : List Int)
    (weather : List WeatherRec) (lookup : List ((Nat × Int) × Int)) :
    List TrainingRow :=
  timestamps.flatMap (fun ts =>
    edges_with_sensors.map (fun e =>
      ⟨e, ts, hourOf ts,
        is_rush_hour_morning_train (hourOf ts),
        is_rush_hour_evening_train (hourOf ts),
        (weather_row weather ts).map (fun r => r.temperature_c),
        lookupKey lookup (e, ts)⟩))

/-- `calc_orientation`, categorisation part (lines 286-301): map a
normalised angle in degrees to one of eight compass octants by the fixed
chain of half-open comparisons. -/
def octantOfAngle (angle : ℚ) : String :=
  if angle < 22.5 ∨ angle ≥ 337.5 then "E"
  else if angle < 67.5 then "NE"
  else if angle < 112.5 then "N"
  else if angle < 157.5 then "NW"
  else if angle < 202.5 then "W"
  else if angle < 247.5 then "SW"
  else if angle < 292.5 then "S"
  else "SE"

/-- `if angle < 0: angle += 360` (lines 282-283). -/
def normalizeAngle (a : ℚ) : ℚ := if a < 0 then a + 360 else a

/-- `calc_orientation` (lines 275-301).  The geometry guard and the
first-to-last `dx`, `dy` are embedded exactly; the transcendental
`np.degrees(np.arctan2(dy, dx))` is abstracted as the parameter `angleOf`
(applied to `dy` then `dx`, as in the source), since the claims about this
function concern the guard and the rational interval classification, not
float trigonometry. -/
def calc_orientation (coords : List (ℚ × ℚ)) (angleOf : ℚ → ℚ → ℚ) :
    Option String :=
  match coords with
  | [] => none
  | [_] => none
  | c0 :: c1 :: rest =>
      let cl := (c1 :: rest).getLastD c1
      let dx := cl.1 - c0.1
      let dy := cl.2 - c0.2
      some (octantOfAngle (normalizeAngle (angleOf dy dx)))

/-- `categorize_road` (lines 308-318). -/
def categorize_road (highway_type : String) : String :=
  if highway_type = "motorway" ∨ highway_type = "trunk" then "major"
  else if highway_type = "primary" ∨ highway_type = "secondary" then "arterial"
  else if highway_type = "tertiary" ∨ highway_type = "residential" then "local"
  else if highway_type = "cycleway" ∨ highway_type = "path" then "bike_path"
  else "other"

/-- `edges_gdf['highway'].fillna('unknown')` (line 306). -/
def highway_type (highway : Option String) : String :=
  highway.getD "unknown"

/-- ASCII lowercase of one character, the per-character action of Python
`str.lower()` on the ASCII tag values this pipeline sees. -/
def lowerChar (c : Char) : Char :=
  if 65 ≤ c.toNat ∧ c.toNat ≤ 90 then Char.ofNat (c.toNat + 32) else c

/-- Python `str.lower()` on an ASCII string, structurally over the
character list (kernel-reducible, unlike `String.toLower`). -/
def lowerString (s : String) : String :=
  String.mk (s.data.map lowerChar)

/-- The `str(x).isdigit()`-guarded `int(x)` of lines 323 and 327: `some`
of the decimal value when the string is non-empty and all characters are
decimal digits, `none` otherwise. -/
def parseDigits (s : String) : Option Nat :=
  if s.data ≠ [] ∧ s.data.all Char.isDigit then
    some (s.data.foldl (fun n c => n * 10 + (c.toNat - 48)) 0)
  else none

/-- `maxspeed_kmh` (lines 322-324):
`int(x) if pd.notna(x) and str(x).isdigit() else 50`.  A raw tag is
modelled as an optional string; `NaN` is `none`. -/
def maxspeed_kmh (x : Option String) : Int :=
  match x with
  | none => 50
  | some s =>
      match parseDigits s with
      | some n => (n : Int)
      | none => 50

/-- `lanes` (lines 326-328): same guard with default `2`. -/
def lanes (x : Option String) : Int :=
  match x with
  | none => 2
  | some s =>
      match parseDigits s with
      | some n => (n : Int)
      | none => 2

/-- `categorize_surface` (lines 333-342): `null` maps to unknown, any
present value is lowercased and matched against the good and medium sets,
everything else is poor. -/
def categorize_surface (surface : Option String) : String :=
  match surface with
  | none => "unknown"
  | some s0 =>
      let s := lowerString s0
      if s = "asphalt" ∨ s = "paved" then "good"
      else if s = "concrete" ∨ s = "paving_stones" then "medium"
      else "poor"

/-- `shift(n)` under `groupby('edge_id')` (lines 461-462), on a frame of
`(edge_id, bike_count)` rows in frame order: the value at row `i` is the
value of the row `n` group-positions earlier among the rows with the same
edge id, or null when the group has fewer than `n` earlier rows. -/
def shiftWithinGroups (n : Nat) (frame : List (Nat × Option ℚ)) :
    List (Option ℚ) :=
  (List.range frame.length).map (fun i =>
    match frame[i]? with
    | none => none
    | some kv =>
        let prior := ((frame.take i).filter (fun p => p.1 = kv.1)).map
          (fun p => p.2)
        if n ≤ prior.length then prior.getD (prior.length - n) none
        else none)

/-- `rolling(window, min_periods=1).mean()` under `groupby('edge_id')`
(lines 463-466): at row `i`, the mean of the non-null values among the
last `window` rows (up to and including `i`) of the same edge id; null
when the window holds no non-null observation. -/
def rollingMeanWithinGroups (window : Nat) (frame : List (Nat × Option ℚ)) :
    List (Option ℚ) :=
  (List.range frame.length).map (fun i =>
    match frame[i]? with
    | none => none
    | some kv =>
        let upto := ((frame.take (i + 1)).filter (fun p => p.1 = kv.1)).map
          (fun p => p.2)
        let win := upto.drop (upto.length - window)
        let valid := win.filterMap id
        if valid.length = 0 then none
        else some (valid.sum / (valid.length : ℚ)))

/-- `final_df['bike_count_lag_1h']` (line 461). -/
def bike_count_lag_1h (frame : List (Nat × Option ℚ)) : List (Option ℚ) :=
  shiftWithinGroups 1 frame

/-- `final_df['bike_count_lag_24h']` (line 462). -/
def bike_count_lag_24h (frame : List (Nat × Option ℚ)) : List (Option ℚ) :=
  shiftWithinGroups 24 frame

/-- `final_df['bike_count_rolling_7d']` (lines 463-466). -/
def bike_count_rolling_7d (frame : List (Nat × Option ℚ)) : List (Option ℚ) :=
  rollingMeanWithinGroups 168 frame

/-- Characterisation of the per-sensor filter: `sensorEntry` produces an
entry exactly for a present, nonzero coordinate pair, and the entry keeps
the counter id. -/
theorem sensorEntry_eq_some (ci : String × SensorInfo) (e : SensorPoint) :
    sensorEntry ci = some e ↔
      ∃ la lo, ci.2.lat = some la ∧ ci.2.lon = some lo ∧
        la ≠ 0 ∧ lo ≠ 0 ∧ e = ⟨ci.1, ci.2.name, (lo, la)⟩ := by
  rcases ci with ⟨c, n, la?, lo?⟩
  cases la? with
  | none => simp [sensorEntry]
  | some la =>
      cases lo? with
      | none => simp [sensorEntry]
      | some lo =>
          by_cases hz : la ≠ 0 ∧ lo ≠ 0
          · simp only [sensorEntry, if_pos hz]
            constructor
            · rintro h
              exact ⟨la, lo, rfl, rfl, hz.1, hz.2, (Option.some_inj.mp h).symm⟩
            · rintro ⟨la', lo', hla, hlo, _, _, he⟩
              obtain rfl := Option.some_inj.mp hla
              obtain rfl := Option.some_inj.mp hlo
              exact congrArg some he.symm
          · simp only [sensorEntry, if_neg hz]
            constructor
            · rintro h; exact absurd h (by simp)
            · rintro ⟨la', lo', hla, hlo, hla0, hlo0, _⟩
              obtain rfl := Option.some_inj.mp hla
              obtain rfl := Option.some_inj.mp hlo
              exact absurd ⟨hla0, hlo0⟩ hz

/-- In a table with pairwise-distinct keys (a Python dict), an item is
determined by its key. -/
theorem key_unique (l : List (String × SensorInfo))
    (h : (l.map Prod.fst).Nodup) :
    ∀ a ∈ l, ∀ b ∈ l, a.1 = b.1 → a = b := by
  induction l with
  | nil => simp
  | cons x rest ih =>
      simp only [List.map_cons, List.nodup_cons] at h
      intro a ha b hb hab
      rcases List.mem_cons.mp ha with rfl | ha' <;>
        rcases List.mem_cons.mp hb with rfl | hb'
      · rfl
      · refine absurd ?_ h.1
        rw [hab]
        exact List.mem_map.mpr ⟨b, hb', rfl⟩
      · refine absurd ?_ h.1
        rw [← hab]
        exact List.mem_map.mpr ⟨a, ha', rfl⟩
      · exact ih h.2 a ha' b hb' hab

/-- C10: a sensor enters `sensors_list` (and hence the nearest-edge
search) iff both of its coordinates are present and nonzero: `None` and an
exact `0` coordinate are skipped alike, silently (the builder is a total
filter, it raises nothing). -/
theorem c10_falsy_coordinate_skip (sensors_info : List (String × SensorInfo))
    (hnd : (sensors_info.map Prod.fst).Nodup) (cid : String)
    (info : SensorInfo) (hmem : (cid, info) ∈ sensors_info) :
    (∃ e ∈ sensors_list sensors_info, e.counter_id = cid) ↔
      ((∃ la, info.lat = some la ∧ la ≠ 0) ∧
       (∃ lo, info.lon = some lo ∧ lo ≠ 0)) := by
  constructor
  · rintro ⟨e, he, hecid⟩
    obtain ⟨ci, hci, hE⟩ := List.mem_filterMap.mp he
    obtain ⟨la, lo, hla, hlo, hla0, hlo0, hef⟩ :=
      (sensorEntry_eq_some ci e).mp hE
    have hkey : ci.1 = cid := by rw [← hecid, hef]
    have : ci = (cid, info) :=
      key_unique sensors_info hnd ci hci (cid, info) hmem (by simp [hkey])
    subst this
    exact ⟨⟨la, hla, hla0⟩, ⟨lo, hlo, hlo0⟩⟩
  · rintro ⟨⟨la, hla, hla0⟩, ⟨lo, hlo, hlo0⟩⟩
    refine ⟨⟨cid, info.name, (lo, la)⟩, List.mem_filterMap.mpr
      ⟨(cid, info), hmem, ?_⟩, rfl⟩
    exact (sensorEntry_eq_some (cid, info) _).mpr
      ⟨la, lo, hla, hlo, hla0, hlo0, rfl⟩

/-- C10 witness: in a concrete metadata table, the sensor at `(0, 2)` (zero
latitude) is excluded from `sensors_list` exactly as a missing coordinate
would be. -/
theorem c10_falsy_coordinate_skip_witness :
    ([("a", (⟨"A", some 1, some 2⟩ : SensorInfo)),
      ("b", ⟨"B", some 0, some 2⟩)].map Prod.fst).Nodup ∧
    (("b", (⟨"B", some 0, some 2⟩ : SensorInfo)) ∈
      [("a", (⟨"A", some 1, some 2⟩ : SensorInfo)),
       ("b", ⟨"B", some 0, some 2⟩)]) ∧
    ((∃ e ∈ sensors_list
        [("a", (⟨"A", some 1, some 2⟩ : SensorInfo)),
         ("b", ⟨"B", some 0, some 2⟩)], e.counter_id = "b") ↔
      ((∃ la, (some (0 : ℚ)) = some la ∧ la ≠ 0) ∧
       (∃ lo, (some (2 : ℚ)) = some lo ∧ lo ≠ 0))) :=
  ⟨by decide, by decide,
    c10_falsy_coordinate_skip
      [("a", ⟨"A", some 1, some 2⟩), ("b", ⟨"B", some 0, some 2⟩)]
      (by decide) "b" ⟨"B", some 0, some 2⟩ (by decide)⟩

/-- C9: for every hour 0-23, the training-grid rush-hour flags (chained
inclusive comparisons `7 <= hour <= 9`, `17 <= hour <= 19`) coincide with
the prediction-path flags (membership in `[7, 8, 9]` resp.
`[17, 18, 19]`). -/
theorem c9_rush_hour_paths_agree (h : Nat) (hh : h ≤ 23) :
    is_rush_hour_morning_train h = is_rush_hour_morning_pred h ∧
    is_rush_hour_evening_train h = is_rush_hour_evening_pred h := by
  interval_cases h <;> exact ⟨rfl, rfl⟩

/-- C9 witness: both flag pairs agree at hour 8. -/
theorem c9_rush_hour_paths_agree_witness :
    8 ≤ 23 ∧
    (is_rush_hour_morning_train 8 = is_rush_hour_morning_pred 8 ∧
     is_rush_hour_evening_train 8 = is_rush_hour_evening_pred 8) :=
  ⟨by decide, c9_rush_hour_paths_agree 8 (by decide)⟩

/-- C8: the static-feature functions are total over absent raw attributes:
a null surface tag gives unknown, a present one is classified
case-insensitively into good, medium or poor; a speed-limit or lane-count
tag that does not parse as a decimal integer falls back to 50 resp. 2, one
that parses yields its value; a missing road-class tag becomes the string
unknown before categorisation. -/
theorem c8_static_features_total :
    categorize_surface none = "unknown" ∧
    (∀ s t : String, lowerString s = lowerString t →
      categorize_surface (some s) = categorize_surface (some t)) ∧
    (∀ s : String, categorize_surface (some s) = "good" ∨
      categorize_surface (some s) = "medium" ∨
      categorize_surface (some s) = "poor") ∧
    categorize_surface (some "Asphalt") = "good" ∧
    categorize_surface (some "PAVING_STONES") = "medium" ∧
    categorize_surface (some "gravel") = "poor" ∧
    maxspeed_kmh none = 50 ∧
    (∀ s : String, parseDigits s = none → maxspeed_kmh (some s) = 50) ∧
    (∀ (s : String) (n : Nat), parseDigits s = some n →
      maxspeed_kmh (some s) = n) ∧
    lanes none = 2 ∧
    (∀ s : String, parseDigits s = none → lanes (some s) = 2) ∧
    (∀ (s : String) (n : Nat), parseDigits s = some n → lanes (some s) = n) ∧
    highway_type none = "unknown" := by
  refine ⟨rfl, ?_, ?_, by decide, by decide, by decide, rfl, ?_, ?_, rfl,
    ?_, ?_, rfl⟩
  · intro s t h
    simp only [categorize_surface]
    rw [h]
  · intro s
    simp only [categorize_surface]
    by_cases h1 : lowerString s = "asphalt" ∨ lowerString s = "paved"
    · rw [if_pos h1]; exact Or.inl rfl
    · rw [if_neg h1]
      by_cases h2 : lowerString s = "concrete" ∨ lowerString s = "paving_stones"
      · rw [if_pos h2]; exact Or.inr (Or.inl rfl)
      · rw [if_neg h2]; exact Or.inr (Or.inr rfl)
  · intro s h; simp [maxspeed_kmh, h]
  · intro s n h; simp [maxspeed_kmh, h]
  · intro s h; simp [lanes, h]
  · intro s n h; simp [lanes, h]

/-- C8 witness: the non-parsing tag `"30x"` falls back to the default
speed limit 50. -/
theorem c8_static_features_total_witness :
    (parseDigits "30x" = none) ∧ maxspeed_kmh (some "30x") = 50 :=
  ⟨by decide, c8_static_features_total.2.2.2.2.2.2.2.1 "30x" (by decide)⟩

/-- C2 (evaluation of the code at the failing input): with weather records
at hours 10 and 11 only, the lookup for grid timestamp 5 — which has no
weather record at or before it — does not fail and does not yield null: it
selects the LAST record (timestamp 11, a future record), because
`searchsorted` returns 0 and `iloc[0 - 1]` wraps around; the assembled row
then carries that future record's temperature.  The exact-match case
(ts 10) and the nearest-prior case (gap at ts 12 with records 10, 11, 13)
behave as specified. -/
theorem c2_weather_lookup_eval :
    weather_row [⟨10, 15, 0, 5, false⟩, ⟨11, 16, 0, 5, false⟩] 5 =
      some ⟨11, 16, 0, 5, false⟩ ∧
    ((11 : Int) > 5) ∧
    weather_row [⟨10, 15, 0, 5, false⟩, ⟨11, 16, 0, 5, false⟩] 10 =
      some ⟨10, 15, 0, 5, false⟩ ∧
    weather_row [⟨10, 15, 0, 5, false⟩, ⟨11, 16, 0, 5, false⟩,
      ⟨13, 17, 0, 5, false⟩] 12 = some ⟨11, 16, 0, 5, false⟩ ∧
    (dataset_rows [1] [5] [⟨10, 15, 0, 5, false⟩, ⟨11, 16, 0, 5, false⟩]
      []).map (fun r => r.temperature_c) = [some 16] := by
  decide

/-- `lookupKey` after an additive update at the same key: the stored value
grows by the added count (an absent key starts at 0). -/
theorem lookupKey_updateAdd_self (d : List ((Nat × Int) × Int))
    (k : Nat × Int) (c : Int) :
    lookupKey (updateAdd d k c) k = some ((lookupKey d k).getD 0 + c) := by
  induction d with
  | nil => simp [updateAdd, lookupKey, List.find?]
  | cons p rest ih =>
      rcases p with ⟨k', v⟩
      by_cases h : k' = k
      · subst h
        simp [updateAdd, lookupKey, List.find?]
      · simp only [updateAdd, if_neg h]
        simpa [lookupKey, List.find?, h] using ih

/-- `lookupKey` after an additive update at a different key is
unchanged. -/
theorem lookupKey_updateAdd_other (d : List ((Nat × Int) × Int))
    (k k'' : Nat × Int) (c : Int) (h : k'' ≠ k) :
    lookupKey (updateAdd d k c) k'' = lookupKey d k'' := by
  have hkk : k ≠ k'' := Ne.symm h
  induction d with
  | nil => simp [updateAdd, lookupKey, List.find?, hkk]
  | cons p rest ih =>
      rcases p with ⟨k', v⟩
      by_cases hk : k' = k
      · subst hk
        simp [updateAdd, lookupKey, List.find?, hkk]
      · simp only [updateAdd, if_neg hk]
        by_cases hk'' : k' = k''
        · subst hk''
          simp [lookupKey, List.find?]
        · simp only [lookupKey, List.find?] at ih ⊢
          simpa [hk''] using ih

/-- The dict built by folding `updateAdd` over the count records maps a key
to the sum of the matching counts (on top of whatever the accumulator
already held), and leaves keys without matching records untouched. -/
theorem lookupKey_foldl_updateAdd (records : List BikeRec)
    (d : List ((Nat × Int) × Int)) (k : Nat × Int) :
    lookupKey (records.foldl
        (fun d r => updateAdd d (r.edge_id, r.timestamp) r.count) d) k =
      if (records.filter
          (fun br => decide ((br.edge_id, br.timestamp) = k))).isEmpty then
        lookupKey d k
      else
        some ((lookupKey d k).getD 0 +
          ((records.filter
            (fun br => decide ((br.edge_id, br.timestamp) = k))).map
              (fun br => br.count)).sum) := by
  induction records generalizing d with
  | nil => simp
  | cons r rest ih =>
      simp only [List.foldl_cons]
      rw [ih]
      by_cases hk : (r.edge_id, r.timestamp) = k
      · rw [hk, lookupKey_updateAdd_self d k r.count]
        by_cases hrest : rest.filter
            (fun br => decide ((br.edge_id, br.timestamp) = k)) = []
        · simp [List.filter_cons, hk, hrest]
        · simp [List.filter_cons, hk, hrest, add_assoc]
      · have hother := lookupKey_updateAdd_other d
          (r.edge_id, r.timestamp) k r.count (fun he => hk he.symm)
        rw [hother]
        simp [List.filter_cons, hk]

/-- The count lookup of the grid assembler: `bike_lookup.get(k, None)` is
the sum of the counts of the records with key `k`, or `none` when no
record matches. -/
theorem lookupKey_bike_lookup (records : List BikeRec) (k : Nat × Int) :
    lookupKey (bike_lookup records) k =
      if (records.filter
          (fun br => decide ((br.edge_id, br.timestamp) = k))).isEmpty then
        none
      else
        some (((records.filter
          (fun br => decide ((br.edge_id, br.timestamp) = k))).map
            (fun br => br.count)).sum) := by
  have h := lookupKey_foldl_updateAdd records [] k
  simpa [bike_lookup, lookupKey, List.find?] using h

/-- C4: the count lookup maps every `(edge id, timestamp)` key to the sum
of the counts of all records with that key (`none` when there is no such
record); in particular two sensors on the same edge with counts 3 and 5 at
the same timestamp give a training-grid `bike_count` of 8. -/
theorem c4_count_lookup_sums :
    (∀ (records : List BikeRec) (k : Nat × Int),
      lookupKey (bike_lookup records) k =
        if (records.filter
            (fun br => decide ((br.edge_id, br.timestamp) = k))).isEmpty then
          none
        else
          some (((records.filter
            (fun br => decide ((br.edge_id, br.timestamp) = k))).map
              (fun br => br.count)).sum)) ∧
    (dataset_rows [7] [100] [⟨100, 15, 0, 5, false⟩]
      (bike_lookup [⟨7, 100, 3⟩, ⟨7, 100, 5⟩])).map
        (fun r => r.bike_count) = [some 8] := by
  constructor
  · intro records k
    exact lookupKey_bike_lookup records k
  · decide

/-- C5: in the assembled grid, every row whose key has no count record
carries a null target, and every row whose key has records carries the
summed observed count. -/
theorem c5_target_null_or_summed (edges : List Nat) (timestamps : List Int)
    (weather : List WeatherRec) (records : List BikeRec) :
    ∀ r ∈ dataset_rows edges timestamps weather (bike_lookup records),
      (r.bike_count = none ↔
        records.filter (fun br =>
          decide ((br.edge_id, br.timestamp) = (r.edge_id, r.timestamp)))
          = []) ∧
      (records.filter (fun br =>
          decide ((br.edge_id, br.timestamp) = (r.edge_id, r.timestamp)))
          ≠ [] →
        r.bike_count = some (((records.filter (fun br =>
          decide ((br.edge_id, br.timestamp) = (r.edge_id, r.timestamp)))).map
            (fun br => br.count)).sum)) := by
  intro r hr
  obtain ⟨ts, hts, hr'⟩ := List.mem_flatMap.mp hr
  obtain ⟨e, he, rfl⟩ := List.mem_map.mp hr'
  have hbc : (⟨e, ts, hourOf ts, is_rush_hour_morning_train (hourOf ts),
      is_rush_hour_evening_train (hourOf ts),
      (weather_row weather ts).map (fun w => w.temperature_c),
      lookupKey (bike_lookup records) (e, ts)⟩ : TrainingRow).bike_count =
      lookupKey (bike_lookup records) (e, ts) := rfl
  rw [hbc, lookupKey_bike_lookup records (e, ts)]
  constructor
  · constructor
    · intro hnone
      by_contra hne
      rw [if_neg (fun hemp => hne (List.isEmpty_iff.mp hemp))] at hnone
      exact Option.some_ne_none _ hnone
    · intro hemp
      rw [if_pos (List.isEmpty_iff.mpr hemp)]
  · intro hne
    rw [if_neg (fun hemp => hne (List.isEmpty_iff.mp hemp))]

/-- C5 witness: one edge, timestamps 100 and 101, a single count record at
hour 100 — the row for hour 101 is in the grid with a null target and the
theorem's characterisation holds for it. -/
theorem c5_target_null_or_summed_witness :
    ((⟨7, 101, 5, false, false, some 15, none⟩ : TrainingRow) ∈
      dataset_rows [7] [100, 101] [⟨100, 15, 0, 5, false⟩]
        (bike_lookup [⟨7, 100, 4⟩])) ∧
    (((⟨7, 101, 5, false, false, some 15, none⟩ : TrainingRow).bike_count
        = none ↔
      [(⟨7, 100, 4⟩ : BikeRec)].filter (fun br =>
        decide ((br.edge_id, br.timestamp) = (7, 101))) = []) ∧
     ([(⟨7, 100, 4⟩ : BikeRec)].filter (fun br =>
        decide ((br.edge_id, br.timestamp) = (7, 101))) ≠ [] →
      (⟨7, 101, 5, false, false, some 15, none⟩ : TrainingRow).bike_count =
        some ((([(⟨7, 100, 4⟩ : BikeRec)].filter (fun br =>
          decide ((br.edge_id, br.timestamp) = (7, 101)))).map
            (fun br => br.count)).sum))) :=
  ⟨by decide,
    c5_target_null_or_summed [7] [100, 101] [⟨100, 15, 0, 5, false⟩]
      [⟨7, 100, 4⟩] ⟨7, 101, 5, false, false, some 15, none⟩ (by decide)⟩

/-- C1: for non-empty, duplicate-free edge and timestamp universes the
grid assembler emits exactly `|edges| × |timestamps|` rows, the
`(edge id, timestamp)` keys are pairwise distinct, and every pair of the
cross product is represented — no drops, no duplicates. -/
theorem c1_grid_cross_product (edges : List Nat) (timestamps : List Int)
    (weather : List WeatherRec) (lookup : List ((Nat × Int) × Int))
    (hne : edges ≠ []) (hnt : timestamps ≠ [])
    (hde : edges.Nodup) (hdt : timestamps.Nodup) :
    (dataset_rows edges timestamps weather lookup).length =
      edges.length * timestamps.length ∧
    ((dataset_rows edges timestamps weather lookup).map
      (fun r => (r.edge_id, r.timestamp))).Nodup ∧
    (∀ e ∈ edges, ∀ t ∈ timestamps,
      ∃ r ∈ dataset_rows edges timestamps weather lookup,
        r.edge_id = e ∧ r.timestamp = t) := by
  refine ⟨?_, ?_, ?_⟩
  · simp only [dataset_rows, List.length_flatMap, Function.comp_def,
      List.length_map]
    rw [List.map_const', List.sum_replicate, smul_eq_mul, Nat.mul_comm]
  · have hkeys : (dataset_rows edges timestamps weather lookup).map
        (fun r => (r.edge_id, r.timestamp)) =
        timestamps.flatMap (fun ts => edges.map (fun e => (e, ts))) := by
      simp only [dataset_rows, List.map_flatMap, List.map_map]
      rfl
    rw [hkeys]
    refine List.nodup_flatMap.mpr ⟨?_, ?_⟩
    · intro ts _
      refine hde.map ?_
      intro a b h
      exact congrArg Prod.fst h
    · refine hdt.imp ?_
      intro a b hab
      intro x hxa hxb
      obtain ⟨e, _, rfl⟩ := List.mem_map.mp hxa
      obtain ⟨e', _, heq⟩ := List.mem_map.mp hxb
      exact hab (congrArg Prod.snd heq).symm
  · intro e he t ht
    refine ⟨⟨e, t, hourOf t, is_rush_hour_morning_train (hourOf t),
      is_rush_hour_evening_train (hourOf t),
      (weather_row weather t).map (fun w => w.temperature_c),
      lookupKey lookup (e, t)⟩, ?_, rfl, rfl⟩
    exact List.mem_flatMap.mpr ⟨t, ht, List.mem_map.mpr ⟨e, he, rfl⟩⟩

/-- C1 witness: two edges and three timestamps give exactly six rows with
distinct keys and full cross-product coverage. -/
theorem c1_grid_cross_product_witness :
    (([1, 2] : List Nat) ≠ [] ∧ ([100, 101, 102] : List Int) ≠ [] ∧
      ([1, 2] : List Nat).Nodup ∧ ([100, 101, 102] : List Int).Nodup) ∧
    ((dataset_rows [1, 2] [100, 101, 102] [⟨100, 15, 0, 5, false⟩]
        []).length = ([1, 2] : List Nat).length *
          ([100, 101, 102] : List Int).length ∧
     ((dataset_rows [1, 2] [100, 101, 102] [⟨100, 15, 0, 5, false⟩]
        []).map (fun r => (r.edge_id, r.timestamp))).Nodup ∧
     (∀ e ∈ ([1, 2] : List Nat), ∀ t ∈ ([100, 101, 102] : List Int),
      ∃ r ∈ dataset_rows [1, 2] [100, 101, 102] [⟨100, 15, 0, 5, false⟩] [],
        r.edge_id = e ∧ r.timestamp = t)) :=
  ⟨⟨by decide, by decide, by decide, by decide⟩,
    c1_grid_cross_product [1, 2] [100, 101, 102] [⟨100, 15, 0, 5, false⟩] []
      (by decide) (by decide) (by decide) (by decide)⟩

/-- `argminFirst` on a non-empty series returns an entry of the series
achieving the minimum distance (the first such entry). -/
theorem argminFirst_spec (dists : List (Nat × ℚ)) (h : dists ≠ []) :
    ∃ p, argminFirst dists = some p ∧ p ∈ dists ∧ ∀ q ∈ dists, p.2 ≤ q.2 := by
  induction dists with
  | nil => exact absurd rfl h
  | cons p rest ih =>
      by_cases hr : rest = []
      · subst hr
        refine ⟨p, by simp [argminFirst], List.mem_cons_self _ _, ?_⟩
        intro q hq
        rcases List.mem_cons.mp hq with rfl | h'
        · exact le_refl _
        · simp at h'
      · obtain ⟨q, hq, hqm, hqmin⟩ := ih hr
        simp only [argminFirst, hq]
        by_cases hle : p.2 ≤ q.2
        · rw [if_pos hle]
          refine ⟨p, rfl, List.mem_cons_self _ _, ?_⟩
          intro r hr'
          rcases List.mem_cons.mp hr' with rfl | h''
          · exact le_refl _
          · exact le_trans hle (hqmin r h'')
        · rw [if_neg hle]
          refine ⟨q, rfl, List.mem_cons_of_mem _ hqm, ?_⟩
          intro r hr'
          rcases List.mem_cons.mp hr' with rfl | h''
          · exact le_of_lt (lt_of_not_le hle)
          · exact hqmin r h''

/-- C3: on a non-empty distance series, the matcher associates the sensor
to an edge iff the minimum distance is at most the 50 m threshold
(boundary inclusive, `≤`); an accepted association is to a nearest edge;
and when every edge is strictly farther than 50 m the sensor is excluded
by returning `none` — no error. -/
theorem c3_sensor_match_threshold (dists : List (Nat × ℚ))
    (h : dists ≠ []) :
    ((sensor_to_edge dists).isSome ↔
      ∃ p ∈ dists, (∀ q ∈ dists, p.2 ≤ q.2) ∧ p.2 ≤ MAX_DISTANCE) ∧
    (∀ e, sensor_to_edge dists = some e →
      ∃ d, (e, d) ∈ dists ∧ (∀ q ∈ dists, d ≤ q.2) ∧ d ≤ MAX_DISTANCE) ∧
    ((∀ q ∈ dists, MAX_DISTANCE < q.2) → sensor_to_edge dists = none) := by
  obtain ⟨m, hm, hmem, hmin⟩ := argminFirst_spec dists h
  have hval : sensor_to_edge dists =
      if m.2 ≤ MAX_DISTANCE then some m.1 else none := by
    rw [sensor_to_edge, hm]
  refine ⟨⟨?_, ?_⟩, ?_, ?_⟩
  · intro hs
    by_cases hle : m.2 ≤ MAX_DISTANCE
    · exact ⟨m, hmem, hmin, hle⟩
    · rw [hval, if_neg hle] at hs
      simp at hs
  · rintro ⟨p, hp, hpmin, hple⟩
    have hle : m.2 ≤ MAX_DISTANCE := le_trans (hmin p hp) hple
    rw [hval, if_pos hle]
    rfl
  · intro e he
    by_cases hle : m.2 ≤ MAX_DISTANCE
    · rw [hval, if_pos hle] at he
      refine ⟨m.2, ?_, hmin, hle⟩
      have hme : m.1 = e := Option.some_inj.mp he
      rw [← hme]
      exact hmem
    · rw [hval, if_neg hle] at he
      exact absurd he (Option.noConfusion)
  · intro hall
    have hle : ¬ m.2 ≤ MAX_DISTANCE := not_le.mpr (hall m hmem)
    rw [hval, if_neg hle]

/-- C3 witness: a series with nearest distance exactly 50 m (inclusive
boundary) — the sensor is associated. -/
theorem c3_sensor_match_threshold_witness :
    (([(3, 60), (1, 50)] : List (Nat × ℚ)) ≠ []) ∧
    (((sensor_to_edge [(3, 60), (1, 50)]).isSome ↔
      ∃ p ∈ ([(3, 60), (1, 50)] : List (Nat × ℚ)),
        (∀ q ∈ ([(3, 60), (1, 50)] : List (Nat × ℚ)), p.2 ≤ q.2) ∧
        p.2 ≤ MAX_DISTANCE) ∧
     (∀ e, sensor_to_edge [(3, 60), (1, 50)] = some e →
      ∃ d, (e, d) ∈ ([(3, 60), (1, 50)] : List (Nat × ℚ)) ∧
        (∀ q ∈ ([(3, 60), (1, 50)] : List (Nat × ℚ)), d ≤ q.2) ∧
        d ≤ MAX_DISTANCE) ∧
     ((∀ q ∈ ([(3, 60), (1, 50)] : List (Nat × ℚ)), MAX_DISTANCE < q.2) →
      sensor_to_edge [(3, 60), (1, 50)] = none)) :=
  ⟨by decide, c3_sensor_match_threshold [(3, 60), (1, 50)] (by decide)⟩

/-- C7: the orientation of a degenerate geometry (fewer than 2
coordinates) is undefined (`None`) without an error; a due-east polyline
(bearing 0) is classified `E`; bearing 46 falls in the `NE` octant; and on
`[0, 360)` the `E` and `NE` octants are exactly the half-open 45-degree
intervals around east and north-east. -/
theorem c7_orientation_octants :
    (∀ (coords : List (ℚ × ℚ)) (angleOf : ℚ → ℚ → ℚ),
      coords.length < 2 → calc_orientation coords angleOf = none) ∧
    (∀ angleOf : ℚ → ℚ → ℚ, angleOf 0 1 = 0 →
      calc_orientation [(0, 0), (1, 0)] angleOf = some "E") ∧
    octantOfAngle (normalizeAngle 46) = "NE" ∧
    (∀ a : ℚ, 0 ≤ a → a < 360 →
      ((octantOfAngle a = "E" ↔ (a < 22.5 ∨ 337.5 ≤ a)) ∧
       (octantOfAngle a = "NE" ↔ (22.5 ≤ a ∧ a < 67.5)))) := by
  refine ⟨?_, ?_, by norm_num [octantOfAngle, normalizeAngle], ?_⟩
  · intro coords angleOf hlen
    match coords with
    | [] => rfl
    | [_] => rfl
    | c0 :: c1 :: rest =>
        simp only [List.length_cons] at hlen
        omega
  · intro angleOf hE
    show some (octantOfAngle (normalizeAngle
      (angleOf ((0 : ℚ) - 0) ((1 : ℚ) - 0)))) = some "E"
    norm_num
    rw [hE]
    norm_num [octantOfAngle, normalizeAngle]
  · intro a h0 h360
    by_cases h1 : a < 22.5 ∨ a ≥ 337.5
    · constructor
      · rw [octantOfAngle, if_pos h1]
        exact ⟨fun _ => h1, fun _ => rfl⟩
      · rw [octantOfAngle, if_pos h1]
        constructor
        · intro hEq
          exact absurd hEq (by decide)
        · intro hmem
          exfalso
          rcases h1 with hlt | hge
          · linarith [hmem.1]
          · linarith [hmem.2]
    · by_cases h2 : a < 67.5
      · constructor
        · rw [octantOfAngle, if_neg h1, if_pos h2]
          constructor
          · intro hEq
            exact absurd hEq (by decide)
          · intro hmem
            exact absurd hmem h1
        · rw [octantOfAngle, if_neg h1, if_pos h2]
          push_neg at h1
          exact ⟨fun _ => ⟨h1.1, h2⟩, fun _ => rfl⟩
      · rw [octantOfAngle, if_neg h1, if_neg h2]
        push_neg at h1
        refine ⟨⟨?_, ?_⟩, ⟨?_, ?_⟩⟩
        · intro hEq
          exfalso
          revert hEq
          split_ifs <;> simp
        · intro hmem
          exfalso
          rcases hmem with hlt | hge
          · linarith [h1.1]
          · linarith [h1.2]
        · intro hEq
          exfalso
          revert hEq
          split_ifs <;> simp
        · intro hmem
          exact absurd hmem.2 h2

/-- C7 witness: the guard at the empty geometry, the due-east polyline
under the zero-angle oracle, and the NE interval at 46 degrees. -/
theorem c7_orientation_octants_witness :
    (([] : List (ℚ × ℚ)).length < 2 ∧
      calc_orientation [] (fun _ _ => 0) = none) ∧
    ((fun (_ _ : ℚ) => (0 : ℚ)) 0 1 = 0 ∧
      calc_orientation [(0, 0), (1, 0)] (fun _ _ => 0) = some "E") ∧
    (0 ≤ (46 : ℚ) ∧ (46 : ℚ) < 360 ∧
      (octantOfAngle 46 = "NE" ↔ (22.5 ≤ (46 : ℚ) ∧ (46 : ℚ) < 67.5))) :=
  ⟨⟨by decide, c7_orientation_octants.1 [] (fun _ _ => 0) (by decide)⟩,
   ⟨rfl, c7_orientation_octants.2.1 (fun _ _ => 0) rfl⟩,
   ⟨by decide, by decide,
    (c7_orientation_octants.2.2.2 46 (by decide) (by decide)).2⟩⟩

/-- Grouped positional shift distributes over the concatenation of two
blocks with no shared edge id: the shift never reaches across the
boundary. -/
theorem shiftWithinGroups_append (n : Nat) (F G : List (Nat × Option ℚ))
    (hdisj : ∀ p ∈ F, ∀ q ∈ G, p.1 ≠ q.1) :
    shiftWithinGroups n (F ++ G) =
      shiftWithinGroups n F ++ shiftWithinGroups n G := by
  unfold shiftWithinGroups
  rw [List.length_append, List.range_add F.length G.length, List.map_append,
    List.map_map]
  congr 1
  · refine List.map_congr_left ?_
    intro i hi
    have hi' : i < F.length := List.mem_range.mp hi
    have h1 : (F ++ G)[i]? = F[i]? := by
      simp [List.getElem?_append, hi']
    have h2 : (F ++ G).take i = F.take i :=
      List.take_append_of_le_length (le_of_lt hi')
    rw [h1, h2]
  · refine List.map_congr_left ?_
    intro j hj
    have hj' : j < G.length := List.mem_range.mp hj
    simp only [Function.comp_apply]
    have h1 : (F ++ G)[F.length + j]? = G[j]? := by
      simp [List.getElem?_append_right]
    rw [h1]
    cases hG : G[j]? with
    | none => rfl
    | some kv =>
        have hkv : kv ∈ G := by
          obtain ⟨hlt, he⟩ := List.getElem?_eq_some_iff.mp hG
          exact he ▸ G.getElem_mem hlt
        have hFnil : F.filter (fun p => decide (p.1 = kv.1)) = [] :=
          List.filter_eq_nil_iff.mpr
            (fun p hp => by simpa using hdisj p hp kv hkv)
        rw [List.take_append j]
        simp only [List.filter_append, hFnil, List.nil_append]

/-- Grouped trailing rolling mean distributes over the concatenation of
two blocks with no shared edge id: the window never reaches across the
boundary. -/
theorem rollingMeanWithinGroups_append (w : Nat)
    (F G : List (Nat × Option ℚ))
    (hdisj : ∀ p ∈ F, ∀ q ∈ G, p.1 ≠ q.1) :
    rollingMeanWithinGroups w (F ++ G) =
      rollingMeanWithinGroups w F ++ rollingMeanWithinGroups w G := by
  unfold rollingMeanWithinGroups
  rw [List.length_append, List.range_add F.length G.length, List.map_append,
    List.map_map]
  congr 1
  · refine List.map_congr_left ?_
    intro i hi
    have hi' : i < F.length := List.mem_range.mp hi
    have h1 : (F ++ G)[i]? = F[i]? := by
      simp [List.getElem?_append, hi']
    have h2 : (F ++ G).take (i + 1) = F.take (i + 1) :=
      List.take_append_of_le_length hi'
    rw [h1, h2]
  · refine List.map_congr_left ?_
    intro j hj
    have hj' : j < G.length := List.mem_range.mp hj
    simp only [Function.comp_apply]
    have h1 : (F ++ G)[F.length + j]? = G[j]? := by
      simp [List.getElem?_append_right]
    rw [h1]
    cases hG : G[j]? with
    | none => rfl
    | some kv =>
        have hkv : kv ∈ G := by
          obtain ⟨hlt, he⟩ := List.getElem?_eq_some_iff.mp hG
          exact he ▸ G.getElem_mem hlt
        have hFnil : F.filter (fun p => decide (p.1 = kv.1)) = [] :=
          List.filter_eq_nil_iff.mpr
            (fun p hp => by simpa using hdisj p hp kv hkv)
        rw [Nat.add_assoc, List.take_append (j + 1)]
        simp only [List.filter_append, hFnil, List.nil_append]

/-- On a frame carrying a single edge id, the grouped shift is the plain
positional shift: row `i` receives the value of row `i - n` when `n` rows
exist before it, and null otherwise. -/
theorem shiftWithinGroups_single_key (n a : Nat) (xs : List (Option ℚ))
    (i : Nat) (hn : 0 < n) (hi : i < xs.length) :
    (shiftWithinGroups n (xs.map (fun v => (a, v)))).getD i none =
      if n ≤ i then xs.getD (i - n) none else none := by
  unfold shiftWithinGroups
  obtain ⟨v, hv⟩ : ∃ v, xs[i]? = some v := by
    rw [List.getElem?_eq_getElem hi]
    exact ⟨_, rfl⟩
  have hfi : (xs.map (fun v => (a, v)))[i]? = some (a, v) := by
    rw [List.getElem?_map, hv]
    rfl
  have hrange : (List.range (xs.map (fun v => (a, v))).length)[i]? =
      some i := by
    simp [List.getElem?_range, hi]
  rw [List.getD_eq_getElem?_getD, List.getElem?_map, hrange]
  simp only [Option.map_some', Option.getD_some, hfi]
  have hprior : (((xs.map (fun v => (a, v))).take i).filter
      (fun p => decide (p.1 = (a, v).1))).map (fun p => p.2) = xs.take i := by
    rw [← List.map_take]
    rw [List.filter_eq_self.mpr ?_]
    · rw [List.map_map]
      exact List.map_id _
    · intro p hp
      obtain ⟨v', hv', rfl⟩ := List.mem_map.mp hp
      simp
  rw [hprior]
  have hplen : (xs.take i).length = i := by
    simp [List.length_take, Nat.min_eq_left (le_of_lt hi)]
  rw [hplen]
  by_cases hni : n ≤ i
  · rw [if_pos hni, if_pos hni]
    have hlt : i - n < i := by omega
    rw [List.getD_eq_getElem?_getD, List.getD_eq_getElem?_getD]
    rw [List.getElem?_take_of_lt hlt]
  · rw [if_neg hni, if_neg hni]

/-- C6: the lag/rolling deriver works per edge and never across edge
boundaries (both grouped operators split over blocks with disjoint edge
ids); on a single-edge block, lag-`n` is the plain positional shift by
exactly `n` rows; and on the per-edge target sequence `[10, 20, 30]`
lag-1h yields `[null, 10, 20]`, rolling-7d (window 168, min-periods 1)
yields `[10, 15, 20]`, and lag-24h yields all null — also with a second
edge present, whose values do not leak into the first. -/
theorem c6_lag_rolling_per_edge :
    (∀ (n w : Nat) (F G : List (Nat × Option ℚ)),
      (∀ p ∈ F, ∀ q ∈ G, p.1 ≠ q.1) →
      shiftWithinGroups n (F ++ G) =
        shiftWithinGroups n F ++ shiftWithinGroups n G ∧
      rollingMeanWithinGroups w (F ++ G) =
        rollingMeanWithinGroups w F ++ rollingMeanWithinGroups w G) ∧
    (∀ (n a : Nat) (xs : List (Option ℚ)) (i : Nat), 0 < n →
      i < xs.length →
      (shiftWithinGroups n (xs.map (fun v => (a, v)))).getD i none =
        if n ≤ i then xs.getD (i - n) none else none) ∧
    bike_count_lag_1h [(1, some 10), (1, some 20), (1, some 30),
      (2, some 40), (2, some 50), (2, some 60)] =
      [none, some 10, some 20, none, some 40, some 50] ∧
    bike_count_rolling_7d [(1, some 10), (1, some 20), (1, some 30)] =
      [some 10, some 15, some 20] ∧
    bike_count_lag_24h [(1, some 10), (1, some 20), (1, some 30)] =
      [none, none, none] := by
  refine ⟨?_, ?_, by decide, ?_, by decide⟩
  · intro n w F G hdisj
    exact ⟨shiftWithinGroups_append n F G hdisj,
      rollingMeanWithinGroups_append w F G hdisj⟩
  · intro n a xs i hn hi
    exact shiftWithinGroups_single_key n a xs i hn hi
  · simp [bike_count_rolling_7d, rollingMeanWithinGroups, List.range_succ]
    norm_num

/-- C6 witness: the boundary-independence part at two one-row blocks with
different edge ids, and the positional-shift part at lag 1, row 1 of a
two-row single-edge series. -/
theorem c6_lag_rolling_per_edge_witness :
    (∀ p ∈ ([(1, some 10)] : List (Nat × Option ℚ)),
      ∀ q ∈ ([(2, some 40)] : List (Nat × Option ℚ)), p.1 ≠ q.1) ∧
    (shiftWithinGroups 1 ([(1, some 10)] ++ [(2, some 40)]) =
      shiftWithinGroups 1 [(1, some 10)] ++
        shiftWithinGroups 1 [(2, some 40)] ∧
     rollingMeanWithinGroups 168 ([(1, some 10)] ++ [(2, some 40)]) =
      rollingMeanWithinGroups 168 [(1, some 10)] ++
        rollingMeanWithinGroups 168 [(2, some 40)]) ∧
    (0 < 1 ∧ 1 < ([some (10 : ℚ), some 20] : List (Option ℚ)).length ∧
      (shiftWithinGroups 1
        (([some (10 : ℚ), some 20] : List (Option ℚ)).map
          (fun v => (5, v)))).getD 1 none =
        if 1 ≤ 1 then
          ([some (10 : ℚ), some 20] : List (Option ℚ)).getD (1 - 1) none
        else none) :=
  ⟨by decide,
   c6_lag_rolling_per_edge.1 1 168 [(1, some 10)] [(2, some 40)]
     (by decide),
   by decide, by decide,
   c6_lag_rolling_per_edge.2.1 1 5 [some 10, some 20] 1 (by decide)
     (by decide)⟩

end CityznV3
